import Mathlib

/-
Shallow embedding of the crossplane-runtime reconciliation primitives:
  * pkg/resource/api.go — APIManagedConnectionPropagator.PropagateConnection,
    APIPatchingApplicator.Apply, APIUpdatingApplicator.Apply, the merge patch;
  * the managed-reconciler api file — APIFinalizer.AddFinalizer /
    RemoveFinalizer, NameAsExternalName Initialize, APISecretPublisher
    PublishConnection / UnpublishConnection.

The versioned object store (a Kubernetes-style API server) is an external
collaborator; it is modelled after its interface contract: Get keyed by
namespace+name returning NotFound when absent, Create failing on an existing
key, Update enforcing optimistic concurrency through resource versions
(ConflictIfStale), and Patch applying an RFC 7386 JSON merge patch.  Transient
transport failures of any single call are modelled by per-call fault flags, and
interference by concurrent writers between the read and the write of one Apply
is modelled by an arbitrary store transformation applied between the two calls.
Each operation returns its error result, the resulting store, and the trace of
client calls it issued, so that ordering and frame properties can be stated.
-/

/-- Errors reported by the object-store client collaborator. -/
inductive StoreErr
  | notFound
  | conflict
  | alreadyExists
  | transport
deriving DecidableEq, Repr

/-- A namespaced reference to a connection secret
(`v1.SecretReference`: namespace + name). -/
structure SecretRef where
  ns : String
  name : String
deriving DecidableEq, Repr

/-- A generic stored object: the metadata and body attributes that the
embedded operations read or write.  `fields` is the map-valued JSON body of
the object (the `Data` of a secret); `controller` is the UID of the
controlling owner reference, when one exists; `connRef` is the
`writeConnectionSecretToReference` of a managed resource. -/
structure KObj where
  ns : String
  name : String
  kind : String
  resourceVersion : Nat
  uid : String
  fields : List (String × String)
  annotations : List (String × String)
  finalizers : List String
  controller : Option String
  connRef : Option SecretRef
deriving DecidableEq, Repr

/-- A `LocalConnectionSecretOwner`: namespaced object with a UID and an
optional local (name-only) connection secret reference. -/
structure LocalOwner where
  ns : String
  name : String
  uid : String
  localConnRef : Option String
deriving DecidableEq, Repr

/-- A group/version/kind triple returned by the type resolver. -/
structure GVK where
  group : String
  version : String
  kind : String
deriving DecidableEq, Repr

/-- The type-resolver collaborator (`runtime.ObjectTyper`), specified as
`ResolveKind(object) -> GroupVersionKind`. -/
structure ObjectTyper where
  kindOfObj : KObj → GVK
  kindOfOwner : LocalOwner → GVK

/-- Objects are keyed by namespace+name. -/
abbrev Key := String × String

def KObj.key (o : KObj) : Key := (o.ns, o.name)

/-- The store is a finite collection of objects, keyed by namespace+name. -/
abbrev Store := List KObj

/-- Look an object up by its key. -/
def storeLookup (s : Store) (k : Key) : Option KObj :=
  s.find? (fun o => o.key = k)

/-- Replace the object stored at the key of `o`, or append it when absent. -/
def storePut : Store → KObj → Store
  | [], o => [o]
  | x :: xs, o => if x.key = o.key then o :: xs else x :: storePut xs o

/-- `Get(key) -> (object, NotFound|OtherError)`: a transport fault is an
unspecific error; an absent key is NotFound. -/
def clientGet (fault : Bool) (s : Store) (k : Key) : Except StoreErr KObj :=
  if fault then .error .transport
  else
    match storeLookup s k with
    | some o => .ok o
    | none => .error .notFound

/-- `Create(object) -> error`: fails on an existing key; the store assigns the
created object a fresh resource version. -/
def clientCreate (fault : Bool) (s : Store) (o : KObj) : Except StoreErr Store :=
  if fault then .error .transport
  else
    match storeLookup s o.key with
    | some _ => .error .alreadyExists
    | none => .ok (storePut s { o with resourceVersion := 1 })

/-- `Update(object-with-version) -> (error, ConflictIfStale)`: full replace,
rejected with a conflict when the submitted resource version is not the stored
one. -/
def clientUpdate (fault : Bool) (s : Store) (o : KObj) : Except StoreErr Store :=
  if fault then .error .transport
  else
    match storeLookup s o.key with
    | none => .error .notFound
    | some cur =>
      if cur.resourceVersion = o.resourceVersion then
        .ok (storePut s { o with resourceVersion := cur.resourceVersion + 1 })
      else .error .conflict

/-- Look a key up in a string-keyed JSON object (association list). -/
def lookupKV (m : List (String × String)) (k : String) : Option String :=
  (m.find? (fun kv => kv.1 = k)).map (fun kv => kv.2)

/-- Set a key in a string-keyed JSON object, replacing any existing binding. -/
def setKV : List (String × String) → String → String → List (String × String)
  | [], k, v => [(k, v)]
  | kv :: m, k, v => if kv.1 = k then (k, v) :: m else kv :: setKV m k v

/-- RFC 7386 merge of a patch object into a base object: keys present in the
patch take the value from the patch, keys absent from the patch keep the
value from the base. -/
def mergeMap (base : List (String × String)) : List (String × String) → List (String × String)
  | [] => base
  | kv :: p => mergeMap (setKV base kv.1 kv.2) p

/-- `Patch(object, mergePatchBytes) -> error`: merge the map-valued
body of the payload into the stored object (a merge patch touches only declared fields) and
advance the resource version. -/
def clientPatch (fault : Bool) (s : Store) (k : Key) (p : KObj) : Except StoreErr Store :=
  if fault then .error .transport
  else
    match storeLookup s k with
    | none => .error .notFound
    | some cur =>
      .ok (storePut s { cur with
        fields := mergeMap cur.fields p.fields,
        annotations := mergeMap cur.annotations p.annotations,
        resourceVersion := cur.resourceVersion + 1 })

/-- One client call, as recorded in the trace of an operation. -/
inductive Call
  | get (k : Key)
  | create (o : KObj)
  | update (o : KObj)
  | patch (k : Key) (body : KObj)
deriving DecidableEq, Repr

/-- Error values returned by the operations: a raw client error, a wrapped
error (`errors.Wrap` with a static step description), or a fresh message
(`errors.New`). -/
inductive Err
  | store (e : StoreErr)
  | wrap (msg : String) (e : Err)
  | simple (msg : String)
deriving DecidableEq, Repr

def errGetSecret : String := "cannot get managed resource connection secret"
def errSecretConflict : String := "cannot establish control of existing connection secret"
def errUpdateSecret : String := "cannot update connection secret"
def errCreateOrUpdateSecret : String := "cannot create or update connection secret"
def errUpdateManaged : String := "cannot update managed resource"
def errCannotCreateObject : String := "cannot create object"
def errCannotGetObject : String := "cannot get object"
def errCannotUpdateObject : String := "cannot update object"
def errCannotPatchObject : String := "cannot patch object"
def errNotControllable : String := "existing connection secret is not controlled by the expected UID"

/-- An Apply Option: given the current and the desired object it either vetoes
with an error or adjusts the pair in place (modelled by returning the adjusted
pair). -/
abbrev ApplyOption := KObj → KObj → Except Err (KObj × KObj)

/-- Run the Apply Options in order over the (current, desired) pair; the first
error aborts. -/
def runOptions : List ApplyOption → KObj → KObj → Except Err (KObj × KObj)
  | [], c, d => .ok (c, d)
  | f :: fs, c, d =>
    match f c d with
    | .error e => .error e
    | .ok (c', d') => runOptions fs c' d'

/-- `APIPatchingApplicator.Apply` (pkg/resource/api.go lines 108-133): snapshot
the desired object, read the current object into the caller variable, create
on NotFound, otherwise run the options over (current, desired) and issue a
merge patch whose payload is the desired snapshot as it stands after the
options ran.  `mid` is the interference of concurrent writers between the read
and the write. -/
def applyPatching (fGet fCreate fPatch : Bool) (mid : Store → Store)
    (s : Store) (o : KObj) (ao : List ApplyOption) :
    Except Err Unit × Store × List Call :=
  let desired := o
  let k := o.key
  match clientGet fGet s k with
  | .error .notFound =>
    match clientCreate fCreate (mid s) o with
    | .ok s' => (.ok (), s', [.get k, .create o])
    | .error e => (.error (.wrap errCannotCreateObject (.store e)), mid s, [.get k, .create o])
  | .error e => (.error (.wrap errCannotGetObject (.store e)), s, [.get k])
  | .ok cur =>
    match runOptions ao cur desired with
    | .error e => (.error e, s, [.get k])
    | .ok (c', d') =>
      match clientPatch fPatch (mid s) c'.key d' with
      | .ok s' => (.ok (), s', [.get k, .patch c'.key d'])
      | .error e => (.error (.wrap errCannotPatchObject (.store e)), mid s, [.get k, .patch c'.key d'])

/-- `APIUpdatingApplicator.Apply` (pkg/resource/api.go lines 154-178): read the
current object into a fresh copy, create the caller object on NotFound,
otherwise run the options over (current, object) and issue a full update of the
caller object as it stands after the options ran.  The update carries the
own resource version of that object; the version read into the fresh copy is never
transferred to it. -/
def applyUpdating (fGet fCreate fUpd : Bool) (mid : Store → Store)
    (s : Store) (o : KObj) (ao : List ApplyOption) :
    Except Err Unit × Store × List Call :=
  let k := o.key
  match clientGet fGet s k with
  | .error .notFound =>
    match clientCreate fCreate (mid s) o with
    | .ok s' => (.ok (), s', [.get k, .create o])
    | .error e => (.error (.wrap errCannotCreateObject (.store e)), mid s, [.get k, .create o])
  | .error e => (.error (.wrap errCannotGetObject (.store e)), s, [.get k])
  | .ok current =>
    match runOptions ao current o with
    | .error e => (.error e, s, [.get k])
    | .ok (_c', o') =>
      match clientUpdate fUpd (mid s) o' with
      | .ok s' => (.ok (), s', [.get k, .update o'])
      | .error e => (.error (.wrap errCannotUpdateObject (.store e)), mid s, [.get k, .update o'])

/-- Modelled from the spec: `MustGetKind` (pkg/meta and pkg/resource, not under
src/) resolves the kind of an object through the type-resolver collaborator, which
the spec gives as the total `ResolveKind(object) -> GroupVersionKind`; per the
spec no failure outcome exists and no panic originates from this core. -/
def MustGetKindObj (t : ObjectTyper) (o : KObj) : GVK := t.kindOfObj o

/-- Modelled from the spec: `MustGetKind` applied to a local connection secret
owner, through the same total type-resolver collaborator. -/
def MustGetKindOwner (t : ObjectTyper) (o : LocalOwner) : GVK := t.kindOfOwner o

/-- Modelled from the spec: `LocalConnectionSecretFor` (pkg/resource, not under
src/) constructs the destination secret identity from the type and namespace of
the destination owner, named by the local secret reference of the owner and
controlled by the owner. -/
def localConnectionSecretFor (o : LocalOwner) (gvk : GVK) (refName : String) : KObj :=
  { ns := o.ns, name := refName, kind := gvk.kind, resourceVersion := 0,
    uid := "", fields := [], annotations := [], finalizers := [],
    controller := some o.uid, connRef := none }

/-- Modelled from the spec: `ConnectionSecretFor` (pkg/resource, not under
src/) builds a secret identity scoped to the managed resource and its declared
reference, controlled by the managed resource. -/
def connectionSecretFor (mg : KObj) (gvk : GVK) (r : SecretRef) : KObj :=
  { ns := r.ns, name := r.name, kind := gvk.kind, resourceVersion := 0,
    uid := "", fields := [], annotations := [], finalizers := [],
    controller := some mg.uid, connRef := none }

def propagateToKey (k : Key) : String := "crossplane.io/propagate-to-" ++ k.1 ++ "/" ++ k.2

/-- Modelled from the spec: `meta.AllowPropagation` (pkg/meta, not under src/)
marks the source secret as allowing propagation — an annotation recording that
this specific destination is permitted to receive a copy. -/
def allowPropagation (src dst : KObj) : KObj × KObj :=
  ({ src with annotations := setKV src.annotations (propagateToKey dst.key) "true" }, dst)

/-- Modelled from the spec: `ConnectionSecretMustBeControllableBy` (pkg/resource,
not under src/) is the Apply Option requiring that the existing secret, if
present, be controlled by the given UID; rewriting a foreign secret is
refused with an ownership-violation error. -/
def connectionSecretMustBeControllableBy (u : String) : ApplyOption :=
  fun cur des =>
    if cur.controller = some u then .ok (cur, des)
    else .error (.simple errNotControllable)

/-- `APIManagedConnectionPropagator.PropagateConnection` (pkg/resource/api.go
lines 58-92): no-op when either side has no configured secret reference; read
the source secret; verify its controller UID is the UID of the managed resource;
build the destination secret, copy the payload, mark the source as allowing
propagation, apply the destination through the updating Applicator guarded by
the controllability option, then persist the marked source via a plain
update. -/
def propagateConnection (t : ObjectTyper)
    (fGetSrc fInnerGet fInnerCreate fInnerUpd fUpdSrc : Bool)
    (o : LocalOwner) (mg : KObj) (s : Store) :
    Except Err Unit × Store × List Call :=
  match mg.connRef, o.localConnRef with
  | none, _ => (.ok (), s, [])
  | some _, none => (.ok (), s, [])
  | some r, some n =>
    let k : Key := (r.ns, r.name)
    match clientGet fGetSrc s k with
    | .error e => (.error (.wrap errGetSecret (.store e)), s, [.get k])
    | .ok src =>
      if src.controller = some mg.uid then
        let dst := { localConnectionSecretFor o (MustGetKindOwner t o) n with fields := src.fields }
        let src' := (allowPropagation src dst).1
        let dst' := (allowPropagation src dst).2
        match applyUpdating fInnerGet fInnerCreate fInnerUpd id s dst'
            [connectionSecretMustBeControllableBy o.uid] with
        | (.error e, s', tr) => (.error (.wrap errCreateOrUpdateSecret e), s', .get k :: tr)
        | (.ok _, s', tr) =>
          match clientUpdate fUpdSrc s' src' with
          | .ok s'' => (.ok (), s'', .get k :: tr ++ [.update src'])
          | .error e => (.error (.wrap errUpdateSecret (.store e)), s', .get k :: tr ++ [.update src'])
      else (.error (.simple errSecretConflict), s, [.get k])

/-- Modelled from the spec: `meta.FinalizerExists` (pkg/meta, not under src/)
— whether the token is present in the finalizer set of the resource. -/
def finalizerExists (mg : KObj) (f : String) : Bool := mg.finalizers.contains f

/-- Modelled from the spec: `meta.AddFinalizer` (pkg/meta, not under src/)
— insert the token into the finalizer set. -/
def metaAddFinalizer (mg : KObj) (f : String) : KObj :=
  { mg with finalizers := mg.finalizers ++ [f] }

/-- Modelled from the spec: `meta.RemoveFinalizer` (pkg/meta, not under src/)
— unconditionally remove the token from the set (a no-op if absent). -/
def metaRemoveFinalizer (mg : KObj) (f : String) : KObj :=
  { mg with finalizers := mg.finalizers.filter (fun x => x ≠ f) }

/-- Modelled from the spec: `resource.IgnoreNotFound` (pkg/resource, not under
src/) — swallow a NotFound error, report every other outcome unchanged. -/
def ignoreNotFound (s : Store) : Except StoreErr Store → Except StoreErr Store
  | .error .notFound => .ok s
  | r => r

/-- `APIFinalizer.AddFinalizer`: no-op if the configured token is already
present; otherwise insert it and persist via a full update.  Returns the
error, the resource as left in the hands of the caller, the store, and the trace. -/
def addFinalizer (fUpd : Bool) (fin : String) (mg : KObj) (s : Store) :
    Except Err Unit × KObj × Store × List Call :=
  if finalizerExists mg fin then (.ok (), mg, s, [])
  else
    let mg' := metaAddFinalizer mg fin
    match clientUpdate fUpd s mg' with
    | .ok s' => (.ok (), mg', s', [.update mg'])
    | .error e => (.error (.wrap errUpdateManaged (.store e)), mg', s, [.update mg'])

/-- `APIFinalizer.RemoveFinalizer`: unconditionally remove the configured token
and persist; a NotFound from the persist step is swallowed, every other error
is wrapped and reported. -/
def removeFinalizer (fUpd : Bool) (fin : String) (mg : KObj) (s : Store) :
    Except Err Unit × KObj × Store × List Call :=
  let mg' := metaRemoveFinalizer mg fin
  match ignoreNotFound s (clientUpdate fUpd s mg') with
  | .ok s' => (.ok (), mg', s', [.update mg'])
  | .error e => (.error (.wrap errUpdateManaged (.store e)), mg', s, [.update mg'])

def extNameKey : String := "crossplane.io/external-name"

/-- Modelled from the spec: `meta.GetExternalName` (pkg/meta, not under src/)
— the external-name annotation, the empty string when unset. -/
def getExternalName (mg : KObj) : String := (lookupKV mg.annotations extNameKey).getD ""

/-- Modelled from the spec: `meta.SetExternalName` (pkg/meta, not under src/)
— set the external-name annotation. -/
def setExternalName (mg : KObj) (n : String) : KObj :=
  { mg with annotations := setKV mg.annotations extNameKey n }

/-- `NameAsExternalName` initializer: no-op if the external-name annotation is
already non-empty; otherwise set it to the resource's own name and persist via
a full update. -/
def initExternalName (fUpd : Bool) (mg : KObj) (s : Store) :
    Except Err Unit × KObj × Store × List Call :=
  if getExternalName mg ≠ "" then (.ok (), mg, s, [])
  else
    let mg' := setExternalName mg mg.name
    match clientUpdate fUpd s mg' with
    | .ok s' => (.ok (), mg', s', [.update mg'])
    | .error e => (.error (.wrap errUpdateManaged (.store e)), mg', s, [.update mg'])

/-- `APISecretPublisher.PublishConnection`: no-op when the managed resource
declares no secret reference; otherwise build the connection secret, set its
payload, and apply it through the patching Applicator guarded by the
controllability option. -/
def publishConnection (t : ObjectTyper) (fGet fCreate fPatch : Bool)
    (mg : KObj) (c : List (String × String)) (s : Store) :
    Except Err Unit × Store × List Call :=
  match mg.connRef with
  | none => (.ok (), s, [])
  | some r =>
    let sec := { connectionSecretFor mg (MustGetKindObj t mg) r with fields := c }
    match applyPatching fGet fCreate fPatch id s sec
        [connectionSecretMustBeControllableBy mg.uid] with
    | (.ok _, s', tr) => (.ok (), s', tr)
    | (.error e, s', tr) => (.error (.wrap errCreateOrUpdateSecret e), s', tr)

/-- `APISecretPublisher.UnpublishConnection`: a documented no-op. -/
def unpublishConnection (_mg : KObj) (_c : List (String × String)) (s : Store) :
    Except Err Unit × Store × List Call :=
  (.ok (), s, [])

/-
Concrete fixtures used by the closed witness and counterexample theorems.
-/

def wTyper : ObjectTyper :=
  ⟨fun _ => ⟨"g", "v1", "Secret"⟩, fun _ => ⟨"g", "v1", "Owner"⟩⟩

/-- A managed resource that writes its connection details to secret d/creds. -/
def wMg : KObj :=
  { ns := "d", name := "db-1", kind := "Managed", resourceVersion := 1, uid := "u1",
    fields := [], annotations := [], finalizers := [], controller := none,
    connRef := some ⟨"d", "creds"⟩ }

/-- A destination owner requesting its copy in secret creds-out. -/
def wOwner : LocalOwner :=
  { ns := "d", name := "app", uid := "u2", localConnRef := some ("creds-out") }

/-- The source connection secret, controlled by a foreign UID. -/
def wSrcForeign : KObj :=
  { ns := "d", name := "creds", kind := "Secret", resourceVersion := 7, uid := "su",
    fields := [("user", "a"), ("pass", "b")], annotations := [], finalizers := [],
    controller := some ("u9"), connRef := none }

/-- The source connection secret, controlled by the managed resource. -/
def wSrcOwned : KObj := { wSrcForeign with controller := some ("u1") }

/-- The destination secret the propagator constructs for `wOwner`. -/
def wDst : KObj :=
  { localConnectionSecretFor wOwner (MustGetKindOwner wTyper wOwner) ("creds-out") with
    fields := wSrcOwned.fields }

/-- The source secret carrying the propagation marker. -/
def wSrcMarked : KObj := (allowPropagation wSrcOwned wDst).1

/-- A generic object used on the create path. -/
def wObj : KObj := { wMg with name := "obj-1" }

/-- An Apply Option that vetoes every apply; used to show options are not
invoked on the create path. -/
def wVeto : ApplyOption := fun _ _ => .error (.store .transport)

def wFin : String := "f"

/-- A managed resource already holding the finalizer token. -/
def wMgFin : KObj := { wMg with finalizers := [wFin] }

/-- A stored object at resource version 5. -/
def c2Stored : KObj :=
  { ns := "d", name := "x", kind := "T", resourceVersion := 5,
    uid := "u1", fields := [("a", "0"), ("b", "2")], annotations := [], finalizers := [],
    controller := none, connRef := none }

/-- A caller-supplied desired object at resource version 3 for the same key. -/
def c2Desired : KObj :=
  { c2Stored with resourceVersion := 3, fields := [("a", "1")] }

/-- A stored object whose field b holds 2. -/
def c3Stored : KObj :=
  { ns := "d", name := "x", kind := "T", resourceVersion := 1,
    uid := "u1", fields := [("a", "0"), ("b", "2")], annotations := [], finalizers := [],
    controller := none, connRef := none }

/-- A desired object mentioning only field a. -/
def c3Desired : KObj :=
  { c3Stored with resourceVersion := 0, fields := [("a", "1")] }

/-- An Apply Option that adjusts the desired snapshot, adding field b. -/
def c3Option : ApplyOption :=
  fun c d => .ok (c, { d with fields := setKV d.fields ("b") ("9") })

/-- The desired snapshot after `c3Option` ran. -/
def c3Mut : KObj := { c3Desired with fields := [("a", "1"), ("b", "9")] }

/-- An Apply Option that mutates only the current copy. -/
def w10Opt : ApplyOption :=
  fun c d => .ok ({ c with fields := setKV c.fields ("mut") ("1") }, d)

/-
Helper lemmas about the key-value maps and the client, shared by the claim
theorems below.
-/

theorem lookupKV_cons (kv : String × String) (m : List (String × String)) (k : String) :
    lookupKV (kv :: m) k = if kv.1 = k then some kv.2 else lookupKV m k := by
  by_cases h : kv.1 = k <;> simp [lookupKV, List.find?, h]

theorem lookupKV_setKV_self (m : List (String × String)) (k v : String) :
    lookupKV (setKV m k v) k = some v := by
  induction m with
  | nil => simp [setKV, lookupKV, List.find?]
  | cons kv m ih =>
    by_cases h : kv.1 = k
    · simp [setKV, h, lookupKV_cons]
    · simp [setKV, h, lookupKV_cons, ih]

theorem lookupKV_setKV_ne (m : List (String × String)) (k k' v : String) (h : k' ≠ k) :
    lookupKV (setKV m k' v) k = lookupKV m k := by
  induction m with
  | nil => simp [setKV, lookupKV_cons, h, lookupKV]
  | cons kv m ih =>
    by_cases h2 : kv.1 = k'
    · simp [setKV, h2, lookupKV_cons, h]
    · simp [setKV, h2, lookupKV_cons, ih]

/-- A key absent from the merge patch keeps its value from the base: the frame
property of the RFC 7386 merge. -/
theorem lookupKV_mergeMap_absent (p : List (String × String)) :
    ∀ (base : List (String × String)) (k : String), lookupKV p k = none →
      lookupKV (mergeMap base p) k = lookupKV base k := by
  induction p with
  | nil => intro base k _; simp [mergeMap]
  | cons kv p ih =>
    intro base k habs
    rw [lookupKV_cons] at habs
    by_cases h : kv.1 = k
    · simp [h] at habs
    · simp [h] at habs
      simp [mergeMap, ih _ _ habs, lookupKV_setKV_ne _ _ _ _ h]

theorem finalizerExists_add (mg : KObj) (f : String) :
    finalizerExists (metaAddFinalizer mg f) f = true := by
  simp [finalizerExists, metaAddFinalizer]

theorem clientCreate_ok (fault : Bool) (s : Store) (o : KObj) (s' : Store)
    (h : clientCreate fault s o = .ok s') :
    s' = storePut s { o with resourceVersion := 1 } := by
  cases fault with
  | true => simp [clientCreate] at h
  | false =>
    cases hlu : storeLookup s o.key with
    | some x => simp [clientCreate, hlu] at h
    | none => simp [clientCreate, hlu] at h; exact h.symm

theorem exceptReturnsValue (r : Except Err Unit) : r = .ok () ∨ ∃ e, r = .error e := by
  cases r with
  | error e => exact .inr ⟨e, rfl⟩
  | ok u => cases u; exact .inl rfl

/-- Claim C1: for every call to PropagateConnection in which both secret
references are configured and the source secret is read successfully, a
missing controller reference or a controller reference UID differing from the
UID of the source managed resource makes PropagateConnection return the
ownership-conflict error, leave the store unchanged, and issue no write to the
destination secret and no update to the source secret — the trace holds only
the single read. -/
theorem propagateConnection_ownership_conflict
    (t : ObjectTyper) (f2 f3 f4 f5 : Bool) (o : LocalOwner) (mg src : KObj)
    (s : Store) (r : SecretRef) (n : String)
    (href : mg.connRef = some r) (hlocal : o.localConnRef = some n)
    (hget : storeLookup s (r.ns, r.name) = some src)
    (hctrl : src.controller ≠ some mg.uid) :
    propagateConnection t false f2 f3 f4 f5 o mg s
      = (.error (.simple errSecretConflict), s, [.get (r.ns, r.name)]) := by
  have hg : clientGet false s (r.ns, r.name) = .ok src := by simp [clientGet, hget]
  simp [propagateConnection, href, hlocal, hg, hctrl]

theorem propagateConnection_ownership_conflict_witness :
    propagateConnection wTyper false false false false false wOwner wMg [wSrcForeign]
      = (.error (.simple errSecretConflict), [wSrcForeign], [.get ("d", "creds")]) :=
  propagateConnection_ownership_conflict wTyper false false false false wOwner wMg
    wSrcForeign [wSrcForeign] ⟨"d", "creds"⟩ ("creds-out") rfl rfl rfl (by decide)

/-- Claim C2 counterexample: the store holds the object at version 5 and the
caller supplies the same key at version 3; the read succeeds and observes
version 5, no concurrent writer advances the store (the interference is the
identity), yet the update issued carries version 3 — not the version captured
by the read — and the store rejects it with a conflict even though the stored
version never advanced past the version observed by the read. -/
theorem applyUpdating_caller_version_counterexample :
    storeLookup [c2Stored] c2Desired.key = some c2Stored ∧
    c2Stored.resourceVersion = 5 ∧
    c2Desired.resourceVersion = 3 ∧
    (applyUpdating false false false id [c2Stored] c2Desired []).2.2
      = [.get c2Desired.key, .update c2Desired] ∧
    (applyUpdating false false false id [c2Stored] c2Desired []).1
      = .error (.wrap errCannotUpdateObject (.store .conflict)) :=
  ⟨rfl, rfl, rfl, rfl, rfl⟩

/-- Claim C2 (amended): on the update path of the update-based Applicator, the
full update issued to the store carries the caller-supplied object as adjusted
by the Apply Options, with the resource version of that object — not the
version captured by the read; the store rejects the write with a conflict
error exactly when the stored version differs from the carried version, the
conflict is surfaced wrapped as the cannot-update error, and a matching
version performs the full replace. -/
theorem applyUpdating_conflict_semantics
    (fCreate : Bool) (mid : Store → Store) (s : Store) (o cur c' o' : KObj)
    (ao : List ApplyOption)
    (hget : storeLookup s o.key = some cur)
    (hopt : runOptions ao cur o = .ok (c', o')) :
    (applyUpdating false fCreate false mid s o ao).2.2 = [.get o.key, .update o'] ∧
    (∀ cur', storeLookup (mid s) o'.key = some cur' →
      cur'.resourceVersion ≠ o'.resourceVersion →
      applyUpdating false fCreate false mid s o ao
        = (.error (.wrap errCannotUpdateObject (.store .conflict)), mid s,
           [.get o.key, .update o'])) ∧
    (∀ cur', storeLookup (mid s) o'.key = some cur' →
      cur'.resourceVersion = o'.resourceVersion →
      applyUpdating false fCreate false mid s o ao
        = (.ok (), storePut (mid s) { o' with resourceVersion := cur'.resourceVersion + 1 },
           [.get o.key, .update o'])) := by
  have hg : clientGet false s o.key = .ok cur := by simp [clientGet, hget]
  refine ⟨?_, ?_, ?_⟩
  · cases hu : clientUpdate false (mid s) o' with
    | ok s' => simp [applyUpdating, hg, hopt, hu]
    | error e => simp [applyUpdating, hg, hopt, hu]
  · intro cur' hlu hne
    have hu : clientUpdate false (mid s) o' = .error .conflict := by
      simp [clientUpdate, hlu, hne]
    simp [applyUpdating, hg, hopt, hu]
  · intro cur' hlu heq
    have hu : clientUpdate false (mid s) o'
        = .ok (storePut (mid s) { o' with resourceVersion := cur'.resourceVersion + 1 }) := by
      simp [clientUpdate, hlu, heq]
    simp [applyUpdating, hg, hopt, hu]

theorem applyUpdating_conflict_semantics_witness :
    applyUpdating false false false id [c2Stored] c2Desired []
      = (.error (.wrap errCannotUpdateObject (.store .conflict)), [c2Stored],
         [.get c2Desired.key, .update c2Desired]) := by
  have h := applyUpdating_conflict_semantics false id [c2Stored] c2Desired c2Stored
    c2Stored c2Desired [] rfl rfl
  exact h.2.1 c2Stored rfl (by decide)

/-- Claim C3 counterexample: the caller-supplied desired object has no field b;
the single Apply Option succeeds but adjusts the desired snapshot, adding
field b with value 9.  The merge patch issued is the adjusted snapshot, not the
serialization of the deep-copy snapshot taken before any store interaction,
and field b — absent from the original desired object — is changed in the
stored object from 2 to 9. -/
theorem applyPatching_payload_counterexample :
    lookupKV c3Desired.fields ("b") = none ∧
    storeLookup [c3Stored] c3Desired.key = some c3Stored ∧
    lookupKV c3Stored.fields ("b") = some ("2") ∧
    (applyPatching false false false id [c3Stored] c3Desired [c3Option]).1 = .ok () ∧
    (applyPatching false false false id [c3Stored] c3Desired [c3Option]).2.2
      = [.get c3Desired.key, .patch c3Desired.key c3Mut] ∧
    c3Mut ≠ c3Desired ∧
    (∃ obj, storeLookup (applyPatching false false false id [c3Stored] c3Desired [c3Option]).2.1 c3Desired.key
        = some obj ∧ lookupKV obj.fields ("b") = some ("9")) := by
  refine ⟨rfl, rfl, rfl, rfl, rfl, ?_, ?_⟩
  · intro h
    have h2 := congrArg (fun x => lookupKV x.fields ("b")) h
    simp [c3Mut, c3Desired, c3Stored, lookupKV, List.find?] at h2
  · exact ⟨_, rfl, rfl⟩

/-- Claim C3 (amended): on the patch path of the patch-based Applicator, the
merge patch sent to the store is the deep-copy snapshot of the caller-supplied
desired object as subsequently adjusted by the Apply Options (which receive it
as their second argument and may mutate it); any field absent from that
adjusted payload is left unchanged in the stored object, regardless of
concurrent changes to other fields.  When no option touches the snapshot the
payload is exactly the original desired object. -/
theorem applyPatching_frame
    (fCreate : Bool) (mid : Store → Store) (s : Store) (o cur c' d' curMid : KObj)
    (ao : List ApplyOption)
    (hget : storeLookup s o.key = some cur)
    (hopt : runOptions ao cur o = .ok (c', d'))
    (hmid : storeLookup (mid s) c'.key = some curMid) :
    applyPatching false fCreate false mid s o ao
      = (.ok (), storePut (mid s)
          { curMid with
            fields := mergeMap curMid.fields d'.fields
            annotations := mergeMap curMid.annotations d'.annotations
            resourceVersion := curMid.resourceVersion + 1 },
         [.get o.key, .patch c'.key d']) ∧
    (∀ fk, lookupKV d'.fields fk = none →
      lookupKV (mergeMap curMid.fields d'.fields) fk = lookupKV curMid.fields fk) := by
  have hg : clientGet false s o.key = .ok cur := by simp [clientGet, hget]
  have hp : clientPatch false (mid s) c'.key d'
      = .ok (storePut (mid s)
          { curMid with
            fields := mergeMap curMid.fields d'.fields
            annotations := mergeMap curMid.annotations d'.annotations
            resourceVersion := curMid.resourceVersion + 1 }) := by
    simp [clientPatch, hmid]
  refine ⟨?_, ?_⟩
  · simp [applyPatching, hg, hopt, hp]
  · intro fk habs
    exact lookupKV_mergeMap_absent _ _ _ habs

theorem applyPatching_frame_witness :
    applyPatching false false false id [c3Stored] c3Desired [c3Option]
      = (.ok (), storePut [c3Stored]
          { c3Stored with
            fields := mergeMap c3Stored.fields c3Mut.fields
            annotations := mergeMap c3Stored.annotations c3Mut.annotations
            resourceVersion := c3Stored.resourceVersion + 1 },
         [.get c3Desired.key, .patch c3Stored.key c3Mut]) :=
  (applyPatching_frame false id [c3Stored] c3Desired c3Stored c3Stored c3Mut c3Stored
    [c3Option] rfl rfl rfl).1

/-- Claim C4: no operation panics or aborts — every one of the eight exposed
operations (both Applicator Apply variants, PropagateConnection, AddFinalizer,
RemoveFinalizer, the external-name initializer, PublishConnection,
UnpublishConnection) is a total function whose first component is always an
ordinary value: success or an error value of the `Err` taxonomy.  `MustGetKind`
is modelled from the spec as total, the type resolver having no failure
outcome; the metadata type assertions in the source return error values. -/
theorem operations_return_error_values
    (t : ObjectTyper) (f1 f2 f3 f4 f5 : Bool) (mid : Store → Store)
    (s : Store) (obj mg : KObj) (ao : List ApplyOption) (ow : LocalOwner)
    (fin : String) (c : List (String × String)) :
    ((applyPatching f1 f2 f3 mid s obj ao).1 = .ok ()
      ∨ ∃ e, (applyPatching f1 f2 f3 mid s obj ao).1 = .error e) ∧
    ((applyUpdating f1 f2 f3 mid s obj ao).1 = .ok ()
      ∨ ∃ e, (applyUpdating f1 f2 f3 mid s obj ao).1 = .error e) ∧
    ((propagateConnection t f1 f2 f3 f4 f5 ow mg s).1 = .ok ()
      ∨ ∃ e, (propagateConnection t f1 f2 f3 f4 f5 ow mg s).1 = .error e) ∧
    ((addFinalizer f1 fin mg s).1 = .ok ()
      ∨ ∃ e, (addFinalizer f1 fin mg s).1 = .error e) ∧
    ((removeFinalizer f1 fin mg s).1 = .ok ()
      ∨ ∃ e, (removeFinalizer f1 fin mg s).1 = .error e) ∧
    ((initExternalName f1 mg s).1 = .ok ()
      ∨ ∃ e, (initExternalName f1 mg s).1 = .error e) ∧
    ((publishConnection t f1 f2 f3 mg c s).1 = .ok ()
      ∨ ∃ e, (publishConnection t f1 f2 f3 mg c s).1 = .error e) ∧
    ((unpublishConnection mg c s).1 = .ok ()
      ∨ ∃ e, (unpublishConnection mg c s).1 = .error e) :=
  ⟨exceptReturnsValue _, exceptReturnsValue _, exceptReturnsValue _, exceptReturnsValue _,
   exceptReturnsValue _, exceptReturnsValue _, exceptReturnsValue _, exceptReturnsValue _⟩

/-- Claim C5: for every call to PropagateConnection that reaches the write
phase (both references configured, source read, ownership verified), the
destination secret is applied before the update persisting the propagation
marker onto the source secret is attempted: the marker update appears in the
trace only after the calls of the destination apply, and only when that apply
succeeded.  If the final source update fails after the destination write
already succeeded, PropagateConnection returns the wrapped update error while
the store keeps the destination write — propagation partially completed. -/
theorem propagateConnection_write_then_mark
    (t : ObjectTyper) (f2 f3 f4 f5 : Bool) (o : LocalOwner) (mg src : KObj)
    (s : Store) (r : SecretRef) (n : String)
    (href : mg.connRef = some r) (hlocal : o.localConnRef = some n)
    (hget : storeLookup s (r.ns, r.name) = some src)
    (hctrl : src.controller = some mg.uid) :
    (∀ e s1 tr,
      applyUpdating f2 f3 f4 id s
          (allowPropagation src { localConnectionSecretFor o (MustGetKindOwner t o) n with fields := src.fields }).2
          [connectionSecretMustBeControllableBy o.uid] = (.error e, s1, tr) →
      propagateConnection t false f2 f3 f4 f5 o mg s
        = (.error (.wrap errCreateOrUpdateSecret e), s1, .get (r.ns, r.name) :: tr)) ∧
    (∀ s1 tr,
      applyUpdating f2 f3 f4 id s
          (allowPropagation src { localConnectionSecretFor o (MustGetKindOwner t o) n with fields := src.fields }).2
          [connectionSecretMustBeControllableBy o.uid] = (.ok (), s1, tr) →
      ((propagateConnection t false f2 f3 f4 f5 o mg s).2.2
        = .get (r.ns, r.name) :: tr ++
          [.update (allowPropagation src { localConnectionSecretFor o (MustGetKindOwner t o) n with fields := src.fields }).1]) ∧
      (∀ e, clientUpdate f5 s1
          (allowPropagation src { localConnectionSecretFor o (MustGetKindOwner t o) n with fields := src.fields }).1
          = .error e →
        propagateConnection t false f2 f3 f4 f5 o mg s
          = (.error (.wrap errUpdateSecret (.store e)), s1,
             .get (r.ns, r.name) :: tr ++
             [.update (allowPropagation src { localConnectionSecretFor o (MustGetKindOwner t o) n with fields := src.fields }).1]))) := by
  have hg : clientGet false s (r.ns, r.name) = .ok src := by simp [clientGet, hget]
  constructor
  · intro e s1 tr hinner
    simp [propagateConnection, href, hlocal, hg, hctrl, hinner]
  · intro s1 tr hinner
    constructor
    · cases hu : clientUpdate f5 s1
          (allowPropagation src { localConnectionSecretFor o (MustGetKindOwner t o) n with fields := src.fields }).1 with
      | ok s2 => simp [propagateConnection, href, hlocal, hg, hctrl, hinner, hu]
      | error e => simp [propagateConnection, href, hlocal, hg, hctrl, hinner, hu]
    · intro e hu
      simp [propagateConnection, href, hlocal, hg, hctrl, hinner, hu]

theorem propagateConnection_write_then_mark_witness :
    propagateConnection wTyper false false false false true wOwner wMg [wSrcOwned]
      = (.error (.wrap errUpdateSecret (.store .transport)),
         storePut [wSrcOwned] { wDst with resourceVersion := 1 },
         [.get ("d", "creds"), .get wDst.key, .create wDst, .update wSrcMarked]) := by
  have h := (propagateConnection_write_then_mark wTyper false false false true wOwner wMg
      wSrcOwned [wSrcOwned] ⟨"d", "creds"⟩ ("creds-out") rfl rfl rfl rfl).2
      (storePut [wSrcOwned] { wDst with resourceVersion := 1 })
      [.get wDst.key, .create wDst] rfl
  exact h.2 .transport rfl

/-- Claim C6: for both Applicator variants, when the read reports not-found the
object is created exactly as the caller supplied it — the create call carries
it verbatim and a successful create stores it (with the store-assigned fresh
version); no Apply Option is invoked (the result does not depend on the option
list), and the only error possibly returned on this path is the wrapped create
error. -/
theorem apply_notFound_creates_verbatim
    (fCreate fPatch fUpd : Bool) (mid : Store → Store) (s : Store) (o : KObj)
    (ao : List ApplyOption)
    (habs : storeLookup s o.key = none) :
    applyPatching false fCreate fPatch mid s o ao = applyPatching false fCreate fPatch mid s o [] ∧
    applyUpdating false fCreate fUpd mid s o ao = applyUpdating false fCreate fUpd mid s o [] ∧
    (applyPatching false fCreate fPatch mid s o ao).2.2 = [.get o.key, .create o] ∧
    (applyUpdating false fCreate fUpd mid s o ao).2.2 = [.get o.key, .create o] ∧
    (∀ e, (applyPatching false fCreate fPatch mid s o ao).1 = .error e →
      ∃ se, e = .wrap errCannotCreateObject (.store se)) ∧
    (∀ e, (applyUpdating false fCreate fUpd mid s o ao).1 = .error e →
      ∃ se, e = .wrap errCannotCreateObject (.store se)) ∧
    ((applyPatching false fCreate fPatch mid s o ao).1 = .ok () →
      (applyPatching false fCreate fPatch mid s o ao).2.1 = storePut (mid s) { o with resourceVersion := 1 }) ∧
    ((applyUpdating false fCreate fUpd mid s o ao).1 = .ok () →
      (applyUpdating false fCreate fUpd mid s o ao).2.1 = storePut (mid s) { o with resourceVersion := 1 }) := by
  have hg : clientGet false s o.key = .error .notFound := by
    simp [clientGet, habs]
  cases hc : clientCreate fCreate (mid s) o with
  | ok s' =>
    simp [applyPatching, applyUpdating, hg, hc, clientCreate_ok _ _ _ _ hc]
  | error e =>
    simp [applyPatching, applyUpdating, hg, hc]

theorem apply_notFound_creates_verbatim_witness :
    applyPatching false false false id [] wObj [wVeto] = applyPatching false false false id [] wObj [] ∧
    (applyUpdating false false false id [] wObj [wVeto]).2.2 = [.get wObj.key, .create wObj] := by
  have h := apply_notFound_creates_verbatim false false false id [] wObj [wVeto] rfl
  exact ⟨h.1, h.2.2.2.1⟩

/-- Claim C7: AddFinalizer is idempotent — when the configured token is
already held it returns success, leaves the resource untouched and issues no
store write; and for every starting state, a second call with the same token
is a complete no-op: the finalizer set (and the store) after the second call
is identical to the state after the first. -/
theorem addFinalizer_idempotent
    (fUpd fUpd2 : Bool) (fin : String) (mg : KObj) (s : Store)
    (h : finalizerExists mg fin = true) :
    addFinalizer fUpd fin mg s = (.ok (), mg, s, []) ∧
    ∀ (mg0 : KObj) (s0 : Store),
      addFinalizer fUpd2 fin (addFinalizer fUpd fin mg0 s0).2.1
          (addFinalizer fUpd fin mg0 s0).2.2.1
        = (.ok (), (addFinalizer fUpd fin mg0 s0).2.1,
           (addFinalizer fUpd fin mg0 s0).2.2.1, []) := by
  constructor
  · simp [addFinalizer, h]
  · intro mg0 s0
    by_cases h0 : finalizerExists mg0 fin
    · simp [addFinalizer, h0]
    · have h1 : (addFinalizer fUpd fin mg0 s0).2.1 = metaAddFinalizer mg0 fin := by
        cases hu : clientUpdate fUpd s0 (metaAddFinalizer mg0 fin) with
        | ok s' => simp [addFinalizer, h0, hu]
        | error e => simp [addFinalizer, h0, hu]
      rw [h1]
      simp [addFinalizer, finalizerExists_add]

theorem addFinalizer_idempotent_witness :
    addFinalizer true wFin wMgFin [] = (.ok (), wMgFin, [], []) :=
  (addFinalizer_idempotent true true wFin wMgFin [] rfl).1

/-- Claim C8: RemoveFinalizer removes the configured token from the finalizer
set (a no-op on the set when absent) and persists via an update; a not-found
from the persist step — the object is already gone — is swallowed and success
is returned, while every other persist error is returned wrapped. -/
theorem removeFinalizer_swallows_notFound
    (fUpd : Bool) (fin : String) (mg : KObj) (s : Store) :
    ((removeFinalizer fUpd fin mg s).2.1).finalizers
        = mg.finalizers.filter (fun x => x ≠ fin) ∧
    (fUpd = false → storeLookup s mg.key = none →
      removeFinalizer fUpd fin mg s
        = (.ok (), metaRemoveFinalizer mg fin, s, [.update (metaRemoveFinalizer mg fin)])) ∧
    (∀ e, clientUpdate fUpd s (metaRemoveFinalizer mg fin) = .error e → e ≠ .notFound →
      (removeFinalizer fUpd fin mg s).1 = .error (.wrap errUpdateManaged (.store e))) := by
  refine ⟨?_, ?_, ?_⟩
  · cases hi : ignoreNotFound s (clientUpdate fUpd s (metaRemoveFinalizer mg fin)) with
    | ok s' =>
      simp only [removeFinalizer, hi]
      simp [metaRemoveFinalizer]
    | error e =>
      simp only [removeFinalizer, hi]
      simp [metaRemoveFinalizer]
  · intro hf habs
    have hu : clientUpdate fUpd s (metaRemoveFinalizer mg fin) = .error .notFound := by
      have hk : (metaRemoveFinalizer mg fin).key = mg.key := rfl
      simp [clientUpdate, hf, hk, habs]
    simp [removeFinalizer, hu, ignoreNotFound]
  · intro e hu hne
    have hi : ignoreNotFound s (clientUpdate fUpd s (metaRemoveFinalizer mg fin)) = .error e := by
      rw [hu]
      cases e with
      | notFound => exact absurd rfl hne
      | conflict => rfl
      | alreadyExists => rfl
      | transport => rfl
    simp [removeFinalizer, hi]

theorem removeFinalizer_swallows_notFound_witness :
    removeFinalizer false wFin wMgFin []
      = (.ok (), metaRemoveFinalizer wMgFin wFin, [], [.update (metaRemoveFinalizer wMgFin wFin)]) :=
  (removeFinalizer_swallows_notFound false wFin wMgFin []).2.1 rfl rfl

/-- Claim C9: the external-name initializer returns success without touching
the resource and without any store write when the external-name annotation is
already non-empty; when it is empty the initializer sets the annotation to the
own name of the resource and issues the persisting update. -/
theorem initExternalName_preserves_nonEmpty
    (fUpd : Bool) (mg : KObj) (s : Store) :
    (getExternalName mg ≠ "" → initExternalName fUpd mg s = (.ok (), mg, s, [])) ∧
    (getExternalName mg = "" →
      (initExternalName fUpd mg s).2.1 = setExternalName mg mg.name ∧
      getExternalName ((initExternalName fUpd mg s).2.1) = mg.name ∧
      (initExternalName fUpd mg s).2.2.2 = [.update (setExternalName mg mg.name)]) := by
  constructor
  · intro h
    simp [initExternalName, h]
  · intro h
    have h1 : (initExternalName fUpd mg s).2.1 = setExternalName mg mg.name ∧
        (initExternalName fUpd mg s).2.2.2 = [.update (setExternalName mg mg.name)] := by
      cases hu : clientUpdate fUpd s (setExternalName mg mg.name) with
      | ok s' => simp [initExternalName, h, hu]
      | error e => simp [initExternalName, h, hu]
    refine ⟨h1.1, ?_, h1.2⟩
    rw [h1.1]
    simp [getExternalName, setExternalName, lookupKV_setKV_self]

theorem initExternalName_preserves_nonEmpty_witness :
    (initExternalName false wMg []).2.1 = setExternalName wMg wMg.name ∧
    getExternalName ((initExternalName false wMg []).2.1) = wMg.name ∧
    (initExternalName false wMg []).2.2.2 = [.update (setExternalName wMg wMg.name)] :=
  (initExternalName_preserves_nonEmpty false wMg []).2 rfl

/-- Claim C10: on the update path of the update-based Applicator the Apply
Options run over the freshly-read current copy and the caller-supplied object;
the only write in the trace is the update carrying the caller-supplied object
as adjusted by the options through their second argument — the current copy,
however the options mutated it, is never sent, so the stored result never
reflects changes made only to the current copy. -/
theorem applyUpdating_discards_current_mutations
    (fCreate fUpd : Bool) (mid : Store → Store) (s : Store) (o cur c' o' : KObj)
    (ao : List ApplyOption)
    (hget : storeLookup s o.key = some cur)
    (hopt : runOptions ao cur o = .ok (c', o')) :
    (applyUpdating false fCreate fUpd mid s o ao).2.2 = [.get o.key, .update o'] ∧
    ((applyUpdating false fCreate fUpd mid s o ao).1 = .ok () →
      ∃ v, (applyUpdating false fCreate fUpd mid s o ao).2.1
        = storePut (mid s) { o' with resourceVersion := v }) := by
  have hg : clientGet false s o.key = .ok cur := by simp [clientGet, hget]
  cases hu : clientUpdate fUpd (mid s) o' with
  | ok s' =>
    have hs' : ∃ v, s' = storePut (mid s) { o' with resourceVersion := v } := by
      cases fUpd with
      | true => simp [clientUpdate] at hu
      | false =>
        cases hlu : storeLookup (mid s) o'.key with
        | none => simp [clientUpdate, hlu] at hu
        | some cur' =>
          simp [clientUpdate, hlu] at hu
          split at hu
          · exact ⟨cur'.resourceVersion + 1, by simp_all⟩
          · simp at hu
    constructor
    · simp [applyUpdating, hg, hopt, hu]
    · intro _
      obtain ⟨v, hv⟩ := hs'
      exact ⟨v, by simp [applyUpdating, hg, hopt, hu, hv]⟩
  | error e =>
    constructor
    · simp [applyUpdating, hg, hopt, hu]
    · intro hok
      simp [applyUpdating, hg, hopt, hu] at hok

theorem applyUpdating_discards_current_mutations_witness :
    (applyUpdating false false false id [c2Stored] c2Desired [w10Opt]).2.2
      = [.get c2Desired.key, .update c2Desired] :=
  (applyUpdating_discards_current_mutations false false id [c2Stored] c2Desired c2Stored
    { c2Stored with fields := setKV c2Stored.fields ("mut") ("1") } c2Desired [w10Opt] rfl rfl).1
